import Mathlib

/-!
Shallow embedding of the geomensura core of `src/backend/AppCarro_backend.py`:
angle utilities (`d2r`, `r2d`, `wrap360`, `wrap180`, `mean_angle_deg`),
spherical geometry (`azimut_xy`, `inclinacion`, `calc_xyz_from_angles`),
the calibration engine (`calibrate`), the in-memory calibration state
(`STATE` with `STATE.update`) and the `/api/compute` reconstruction route.

Python floats are modelled as exact real numbers.  The Python float `%`
with a positive modulus is `a - b * floor (a / b)`.  `math.atan2 y x` is
modelled as the argument of the complex number `x + y * I`: both have
principal range `(-pi, pi]` and both return `0` at the origin.
-/

open Real

noncomputable section

namespace AppCarro

/-- `d2r(deg)`: degrees to radians. -/
def d2r (deg : ℝ) : ℝ := deg * Real.pi / 180

/-- `r2d(rad)`: radians to degrees. -/
def r2d (rad : ℝ) : ℝ := rad * 180 / Real.pi

/-- Python float `%` with positive modulus, in exact real arithmetic:
the result has the sign of the divisor. -/
def pyMod (a b : ℝ) : ℝ := a - b * ⌊a / b⌋

/-- `wrap360(a)`: `a % 360.0`, then add `360` if the remainder is negative. -/
def wrap360 (a : ℝ) : ℝ :=
  let a0 := pyMod a 360
  if a0 ≥ 0 then a0 else a0 + 360

/-- `wrap180(a)`: `(a + 180.0) % 360.0 - 180.0`. -/
def wrap180 (a : ℝ) : ℝ := pyMod (a + 180) 360 - 180

/-- `math.atan2 y x`, modelled as the complex argument of `x + y * I`. -/
def atan2 (y x : ℝ) : ℝ := Complex.arg (x + y * Complex.I)

/-- The sine accumulator `s` of `mean_angle_deg`. -/
def sumSin (l : List ℝ) : ℝ := (l.map fun a => Real.sin (d2r a)).sum

/-- The cosine accumulator `c` of `mean_angle_deg`. -/
def sumCos (l : List ℝ) : ℝ := (l.map fun a => Real.cos (d2r a)).sum

/-- `mean_angle_deg(angles_deg)`: circular mean with the explicit
degeneracy policy when both accumulators are below `1e-12`. -/
def mean_angle_deg (angles : List ℝ) : ℝ :=
  if |sumSin angles| < 1e-12 ∧ |sumCos angles| < 1e-12 then 0
  else wrap360 (r2d (atan2 (sumSin angles) (sumCos angles)))

/-- A Cartesian triple, as the `{"X":…, "Y":…, "Z":…}` dictionaries. -/
structure P3 where
  X : ℝ
  Y : ℝ
  Z : ℝ

/-- `azimut_xy(cam, pt)`: 0 deg = North (+Y), 90 deg = East (+X). -/
def azimut_xy (cam pt : P3) : ℝ :=
  wrap360 (r2d (atan2 (pt.X - cam.X) (pt.Y - cam.Y)))

/-- `math.hypot(x, y)`. -/
def hypot (x y : ℝ) : ℝ := Real.sqrt (x * x + y * y)

/-- `inclinacion(cam, pt)`: elevation above the horizontal plane. -/
def inclinacion (cam pt : P3) : ℝ :=
  r2d (atan2 (pt.Z - cam.Z) (hypot (pt.X - cam.X) (pt.Y - cam.Y)))

/-- `calc_xyz_from_angles(cam, ah_deg, av_deg, dist)`: forward transform. -/
def calc_xyz_from_angles (cam : P3) (ah_deg av_deg dist : ℝ) : P3 :=
  let ah_r := d2r ah_deg
  let av_r := d2r av_deg
  let dh := dist * Real.cos av_r
  let dz := dist * Real.sin av_r
  let dx := dh * Real.sin ah_r
  let dy := dh * Real.cos ah_r
  ⟨cam.X + dx, cam.Y + dy, cam.Z + dz⟩

/-- The geometric distance `math.sqrt(dx*dx + dy*dy + dz*dz)` computed in
`calibrate`, i.e. the Euclidean distance from `cam` to `pt`. -/
def dist_geom (cam pt : P3) : ℝ :=
  Real.sqrt ((pt.X - cam.X) * (pt.X - cam.X) + (pt.Y - cam.Y) * (pt.Y - cam.Y) +
    (pt.Z - cam.Z) * (pt.Z - cam.Z))

/-- One collimation point of the configuration: true coordinates plus the
observed readings (`D_obs` defaults to `0` at the parsing layer). -/
structure RefPt where
  name : String
  X : ℝ
  Y : ℝ
  Z : ℝ
  AH_obs : ℝ
  AV_obs : ℝ
  D_obs : ℝ

/-- The true position of a collimation point. -/
def RefPt.pos (p : RefPt) : P3 := ⟨p.X, p.Y, p.Z⟩

/-- One per-point diagnostics record produced by `calibrate`. -/
structure Diagnostic where
  name : String
  AH_real : ℝ
  AV_real : ℝ
  AH_obs : ℝ
  AV_obs : ℝ
  dAH : ℝ
  dAV : ℝ
  Dist_geom : ℝ
  Dist_obs : ℝ
  Dist_res : ℝ

/-- The dictionary returned by a successful `calibrate`. -/
structure CalResult where
  ajuste_ah : ℝ
  ajuste_av : ℝ
  diagnostics : List Diagnostic
  n_points : ℕ

/-- The error raised by the engine: the `ValueError` for fewer than two
collimation points (`InsufficientDataError` in the specification). -/
inductive CalError where
  | insufficientData
deriving DecidableEq

/-- The in-memory configuration consumed by `calibrate`. -/
structure Config where
  camera : P3
  collimation_points : List RefPt

/-- The horizontal residual `delta_ah = wrap180(ah_real - AH_obs)`. -/
def delta_ah (cam : P3) (pt : RefPt) : ℝ :=
  wrap180 (azimut_xy cam pt.pos - pt.AH_obs)

/-- The vertical residual `delta_av = av_real - AV_obs`. -/
def delta_av (cam : P3) (pt : RefPt) : ℝ :=
  inclinacion cam pt.pos - pt.AV_obs

/-- The diagnostics entry `calibrate` appends for one point. -/
def mkDiagnostic (cam : P3) (pt : RefPt) : Diagnostic :=
  { name := pt.name
    AH_real := azimut_xy cam pt.pos
    AV_real := inclinacion cam pt.pos
    AH_obs := pt.AH_obs
    AV_obs := pt.AV_obs
    dAH := delta_ah cam pt
    dAV := delta_av cam pt
    Dist_geom := dist_geom cam pt.pos
    Dist_obs := pt.D_obs
    Dist_res := dist_geom cam pt.pos - pt.D_obs }

/-- `calibrate(cfg)`: raises for fewer than 2 points, otherwise computes the
circular mean of the folded horizontal residuals, re-expressed via `wrap180`,
and the arithmetic mean of the vertical residuals. -/
def calibrate (cfg : Config) : Except CalError CalResult :=
  let cam := cfg.camera
  let pts := cfg.collimation_points
  if pts.length < 2 then .error .insufficientData
  else
    let deltas_ah := pts.map (delta_ah cam)
    let deltas_av := pts.map (delta_av cam)
    let deltas_ah_0360 := deltas_ah.map wrap360
    let ajuste_ah := wrap180 (mean_angle_deg deltas_ah_0360)
    let ajuste_av := deltas_av.sum / deltas_av.length
    .ok { ajuste_ah := ajuste_ah
          ajuste_av := ajuste_av
          diagnostics := pts.map (mkDiagnostic cam)
          n_points := pts.length }

/-- The process-wide `STATE` dictionary. -/
structure ServerState where
  ajuste_ah : ℝ
  ajuste_av : ℝ
  diagnostics : List Diagnostic
  n_points : ℕ
  loaded : Bool

/-- The initial `STATE` (no `n_points` key is modelled as `0`). -/
def initState : ServerState :=
  { ajuste_ah := 0, ajuste_av := 0, diagnostics := [], n_points := 0, loaded := false }

/-- `STATE.update(cal)` followed by `STATE["loaded"] = True`. -/
def publish (st : ServerState) (cal : CalResult) : ServerState :=
  { st with
    ajuste_ah := cal.ajuste_ah
    ajuste_av := cal.ajuste_av
    diagnostics := cal.diagnostics
    n_points := cal.n_points
    loaded := true }

/-- The `/api/calibrate` route: `calibrate` then publish; a raised error
propagates before `STATE.update` runs, leaving the state untouched. -/
def api_calibrate (st : ServerState) (cfg : Config) :
    ServerState × Except CalError CalResult :=
  match calibrate cfg with
  | .error e => (st, .error e)
  | .ok cal => (publish st cal, .ok cal)

/-- The result record of the `/api/compute` route. -/
structure ComputedPoint where
  X : ℝ
  Y : ℝ
  Z : ℝ
  AH_obs : ℝ
  AV_obs : ℝ
  D_obs : ℝ
  AH_corr : ℝ
  AV_corr : ℝ

/-- The computation of the `/api/compute` route on an already-loaded state:
bias-corrected angles, then the forward transform. -/
def api_compute_point (st : ServerState) (cam : P3) (ah_obs av_obs dist : ℝ) :
    ComputedPoint :=
  let ah_corr := wrap360 (ah_obs + st.ajuste_ah)
  let av_corr := av_obs + st.ajuste_av
  let p := calc_xyz_from_angles cam ah_corr av_corr dist
  { X := p.X, Y := p.Y, Z := p.Z
    AH_obs := ah_obs, AV_obs := av_obs, D_obs := dist
    AH_corr := ah_corr, AV_corr := av_corr }

/-! ## Basic lemmas about `pyMod`, `wrap360`, `wrap180` -/

theorem pyMod_eq_fract {b : ℝ} (hb : b ≠ 0) (a : ℝ) :
    pyMod a b = b * Int.fract (a / b) := by
  rw [pyMod, Int.fract]
  field_simp

theorem pyMod_nonneg {b : ℝ} (hb : 0 < b) (a : ℝ) : 0 ≤ pyMod a b := by
  rw [pyMod_eq_fract hb.ne']
  exact mul_nonneg hb.le (Int.fract_nonneg _)

theorem pyMod_lt {b : ℝ} (hb : 0 < b) (a : ℝ) : pyMod a b < b := by
  rw [pyMod_eq_fract hb.ne']
  calc b * Int.fract (a / b) < b * 1 := by
        exact mul_lt_mul_of_pos_left (Int.fract_lt_one _) hb
    _ = b := mul_one b

theorem pyMod_eq_self {a b : ℝ} (hb : 0 < b) (h0 : 0 ≤ a) (h1 : a < b) :
    pyMod a b = a := by
  have hfloor : ⌊a / b⌋ = 0 := by
    rw [Int.floor_eq_zero_iff]
    constructor
    · exact div_nonneg h0 hb.le
    · rw [div_lt_one hb]
      exact h1
  simp [pyMod, hfloor]

theorem pyMod_add_int_mul {b : ℝ} (hb : b ≠ 0) (a : ℝ) (k : ℤ) :
    pyMod (a + b * k) b = pyMod a b := by
  have hdiv : (a + b * k) / b = a / b + k := by
    field_simp
    ring
  rw [pyMod, pyMod, hdiv, Int.floor_add_int]
  push_cast
  ring

theorem wrap360_eq_pyMod (a : ℝ) : wrap360 a = pyMod a 360 := by
  rw [wrap360]
  exact if_pos (pyMod_nonneg (by norm_num) a)

theorem wrap360_nonneg (a : ℝ) : 0 ≤ wrap360 a := by
  rw [wrap360_eq_pyMod]
  exact pyMod_nonneg (by norm_num) a

theorem wrap360_lt (a : ℝ) : wrap360 a < 360 := by
  rw [wrap360_eq_pyMod]
  exact pyMod_lt (by norm_num) a

theorem wrap360_eq_self {a : ℝ} (h0 : 0 ≤ a) (h1 : a < 360) : wrap360 a = a := by
  rw [wrap360_eq_pyMod]
  exact pyMod_eq_self (by norm_num) h0 h1

theorem wrap360_add_int_mul (a : ℝ) (k : ℤ) : wrap360 (a + 360 * k) = wrap360 a := by
  rw [wrap360_eq_pyMod, wrap360_eq_pyMod]
  exact pyMod_add_int_mul (by norm_num) a k

theorem wrap180_mem_Ico (a : ℝ) : wrap180 a ∈ Set.Ico (-180 : ℝ) 180 := by
  constructor
  · have := pyMod_nonneg (b := 360) (by norm_num) (a + 180)
    rw [wrap180]
    linarith
  · have := pyMod_lt (b := 360) (by norm_num) (a + 180)
    rw [wrap180]
    linarith

/-! ## Lemmas about `atan2` -/

theorem atan2_cos_sin {r θ : ℝ} (hr : 0 < r) (hθ : θ ∈ Set.Ioc (-Real.pi) Real.pi) :
    atan2 (r * Real.sin θ) (r * Real.cos θ) = θ := by
  have harg : ((r * Real.cos θ : ℝ) : ℂ) + (r * Real.sin θ : ℝ) * Complex.I
      = (r : ℂ) * (Complex.cos θ + Complex.sin θ * Complex.I) := by
    rw [Complex.ofReal_mul, Complex.ofReal_mul, Complex.ofReal_cos, Complex.ofReal_sin]
    ring
  rw [atan2, harg]
  exact Complex.arg_mul_cos_add_sin_mul_I hr hθ

theorem atan2_zero_zero : atan2 0 0 = 0 := by
  simp [atan2, Complex.arg_zero]

theorem atan2_cos_sin_shift {r : ℝ} (hr : 0 < r) (θ : ℝ) :
    ∃ k : ℤ, atan2 (r * Real.sin θ) (r * Real.cos θ) = θ - k * (2 * Real.pi) := by
  have h2pi : (0 : ℝ) < 2 * Real.pi := by positivity
  refine ⟨⌈(θ - Real.pi) / (2 * Real.pi)⌉, ?_⟩
  set k : ℤ := ⌈(θ - Real.pi) / (2 * Real.pi)⌉ with hk
  have hmem : θ - k * (2 * Real.pi) ∈ Set.Ioc (-Real.pi) Real.pi := by
    constructor
    · have hlt := Int.ceil_lt_add_one ((θ - Real.pi) / (2 * Real.pi))
      have h1 : (k : ℝ) * (2 * Real.pi) <
          ((θ - Real.pi) / (2 * Real.pi) + 1) * (2 * Real.pi) :=
        mul_lt_mul_of_pos_right hlt h2pi
      rw [add_mul, div_mul_cancel₀ _ h2pi.ne'] at h1
      linarith
    · have hle := Int.le_ceil ((θ - Real.pi) / (2 * Real.pi))
      have h1 : ((θ - Real.pi) / (2 * Real.pi)) * (2 * Real.pi) ≤ (k : ℝ) * (2 * Real.pi) :=
        mul_le_mul_of_nonneg_right hle h2pi.le
      rw [div_mul_cancel₀ _ h2pi.ne'] at h1
      linarith
  have hs := Real.sin_sub_int_mul_two_pi θ k
  have hc := Real.cos_sub_int_mul_two_pi θ k
  calc atan2 (r * Real.sin θ) (r * Real.cos θ)
      = atan2 (r * Real.sin (θ - k * (2 * Real.pi)))
          (r * Real.cos (θ - k * (2 * Real.pi))) := by rw [hs, hc]
    _ = θ - k * (2 * Real.pi) := atan2_cos_sin hr hmem

theorem r2d_d2r (x : ℝ) : r2d (d2r x) = x := by
  rw [r2d, d2r]
  field_simp

theorem wrap360_r2d_atan2 {r : ℝ} (hr : 0 < r) (A : ℝ) :
    wrap360 (r2d (atan2 (r * Real.sin (d2r A)) (r * Real.cos (d2r A)))) = wrap360 A := by
  obtain ⟨k, hk⟩ := atan2_cos_sin_shift hr (d2r A)
  rw [hk]
  have hval : r2d (d2r A - k * (2 * Real.pi)) = A + 360 * (-k : ℤ) := by
    rw [r2d, d2r]
    push_cast
    field_simp
    ring
  rw [hval, wrap360_add_int_mul]

theorem d2r_mem_Ioo {E : ℝ} (hE0 : -90 < E) (hE1 : E < 90) :
    d2r E ∈ Set.Ioo (-(Real.pi / 2)) (Real.pi / 2) := by
  have hpi := Real.pi_pos
  constructor
  · rw [d2r]
    nlinarith
  · rw [d2r]
    nlinarith

/-! ## Round-trip helper lemmas for the forward transform -/

theorem forward_dx (O : P3) (A E D : ℝ) :
    (calc_xyz_from_angles O A E D).X - O.X = D * Real.cos (d2r E) * Real.sin (d2r A) := by
  simp [calc_xyz_from_angles]

theorem forward_dy (O : P3) (A E D : ℝ) :
    (calc_xyz_from_angles O A E D).Y - O.Y = D * Real.cos (d2r E) * Real.cos (d2r A) := by
  simp [calc_xyz_from_angles]

theorem forward_dz (O : P3) (A E D : ℝ) :
    (calc_xyz_from_angles O A E D).Z - O.Z = D * Real.sin (d2r E) := by
  simp [calc_xyz_from_angles]

theorem roundtrip_azimut (O : P3) {A E D : ℝ} (hA0 : 0 ≤ A) (hA1 : A < 360)
    (hE0 : -90 < E) (hE1 : E < 90) (hD : 0 < D) :
    azimut_xy O (calc_xyz_from_angles O A E D) = A := by
  have hcos : 0 < Real.cos (d2r E) := Real.cos_pos_of_mem_Ioo (d2r_mem_Ioo hE0 hE1)
  have hdh : 0 < D * Real.cos (d2r E) := mul_pos hD hcos
  rw [azimut_xy, forward_dx, forward_dy, wrap360_r2d_atan2 hdh, wrap360_eq_self hA0 hA1]

theorem hypot_of_polar {dh : ℝ} (hdh : 0 ≤ dh) (a : ℝ) :
    hypot (dh * Real.sin a) (dh * Real.cos a) = dh := by
  have hsum : dh * Real.sin a * (dh * Real.sin a) + dh * Real.cos a * (dh * Real.cos a)
      = dh ^ 2 := by
    calc dh * Real.sin a * (dh * Real.sin a) + dh * Real.cos a * (dh * Real.cos a)
        = dh ^ 2 * (Real.sin a ^ 2 + Real.cos a ^ 2) := by ring
      _ = dh ^ 2 := by rw [Real.sin_sq_add_cos_sq, mul_one]
  rw [hypot, hsum, Real.sqrt_sq hdh]

theorem roundtrip_inclinacion (O : P3) (A : ℝ) {E D : ℝ}
    (hE0 : -90 < E) (hE1 : E < 90) (hD : 0 < D) :
    inclinacion O (calc_xyz_from_angles O A E D) = E := by
  have hpi := Real.pi_pos
  have hcos : 0 < Real.cos (d2r E) := Real.cos_pos_of_mem_Ioo (d2r_mem_Ioo hE0 hE1)
  have hdh : 0 ≤ D * Real.cos (d2r E) := (mul_pos hD hcos).le
  have hmem : d2r E ∈ Set.Ioc (-Real.pi) Real.pi := by
    obtain ⟨h1, h2⟩ := d2r_mem_Ioo hE0 hE1
    constructor
    · linarith
    · linarith
  rw [inclinacion, forward_dx, forward_dy, forward_dz,
    hypot_of_polar hdh, atan2_cos_sin hD hmem, r2d_d2r]

theorem roundtrip_dist (O : P3) (A E : ℝ) {D : ℝ} (hD : 0 ≤ D) :
    dist_geom O (calc_xyz_from_angles O A E D) = D := by
  have hsum : ∀ x y z : ℝ, x = D * Real.cos (d2r E) * Real.sin (d2r A) →
      y = D * Real.cos (d2r E) * Real.cos (d2r A) → z = D * Real.sin (d2r E) →
      x * x + y * y + z * z = D ^ 2 := by
    intro x y z hx hy hz
    subst hx hy hz
    calc D * Real.cos (d2r E) * Real.sin (d2r A) * (D * Real.cos (d2r E) * Real.sin (d2r A)) +
          D * Real.cos (d2r E) * Real.cos (d2r A) * (D * Real.cos (d2r E) * Real.cos (d2r A)) +
          D * Real.sin (d2r E) * (D * Real.sin (d2r E))
        = D ^ 2 * Real.cos (d2r E) ^ 2 * (Real.sin (d2r A) ^ 2 + Real.cos (d2r A) ^ 2) +
          D ^ 2 * Real.sin (d2r E) ^ 2 := by ring
      _ = D ^ 2 * (Real.sin (d2r E) ^ 2 + Real.cos (d2r E) ^ 2) := by
          rw [Real.sin_sq_add_cos_sq]
          ring
      _ = D ^ 2 := by rw [Real.sin_sq_add_cos_sq, mul_one]
  rw [dist_geom, hsum _ _ _ (forward_dx O A E D) (forward_dy O A E D) (forward_dz O A E D),
    Real.sqrt_sq hD]

/-! ## Claim theorems: easy cases -/

/-- C10: the forward transform at distance `0` returns the camera position
exactly, all four offsets being zero. -/
theorem forward_zero_dist_id (cam : P3) (A E : ℝ) :
    calc_xyz_from_angles cam A E 0 = cam := by
  cases cam
  simp [calc_xyz_from_angles]

/-- C9: the circular mean of the empty list is exactly `0`: both accumulators
are zero, which triggers the degeneracy branch. -/
theorem mean_angle_deg_nil : mean_angle_deg [] = 0 := by
  rw [mean_angle_deg, if_pos]
  constructor <;> norm_num [sumSin, sumCos]

/-! ## Lemmas about the circular mean and concrete wrap values -/

theorem atan2_zero_of_nonneg {x : ℝ} (hx : 0 ≤ x) : atan2 0 x = 0 := by
  rw [atan2]
  norm_num
  exact Complex.arg_ofReal_of_nonneg hx

theorem wrap360_zero : wrap360 (0 : ℝ) = 0 :=
  wrap360_eq_self le_rfl (by norm_num)

theorem r2d_zero : r2d 0 = 0 := by
  rw [r2d]
  norm_num

theorem wrap180_neg_five : wrap180 (-5 : ℝ) = -5 := by
  have h : (-5 : ℝ) + 180 = 175 := by norm_num
  rw [wrap180, h, pyMod_eq_self (by norm_num) (by norm_num) (by norm_num)]
  norm_num

theorem wrap360_neg_five : wrap360 (-5 : ℝ) = 355 := by
  have h : (-5 : ℝ) = 355 + 360 * ((-1 : ℤ) : ℝ) := by push_cast; ring
  rw [h, wrap360_add_int_mul, wrap360_eq_self (by norm_num) (by norm_num)]

theorem wrap180_355 : wrap180 (355 : ℝ) = -5 := by
  have h : (355 : ℝ) + 180 = 175 + 360 * ((1 : ℤ) : ℝ) := by push_cast; ring
  rw [wrap180, h, pyMod_add_int_mul (by norm_num),
    pyMod_eq_self (by norm_num) (by norm_num) (by norm_num)]
  norm_num

theorem azimut_xy_mem_Ico (cam pt : P3) : azimut_xy cam pt ∈ Set.Ico (0 : ℝ) 360 := by
  rw [azimut_xy]
  exact ⟨wrap360_nonneg _, wrap360_lt _⟩

theorem sumSin_replicate (n : ℕ) (a : ℝ) :
    sumSin (List.replicate n a) = n * Real.sin (d2r a) := by
  rw [sumSin, List.map_replicate, List.sum_replicate, nsmul_eq_mul]

theorem sumCos_replicate (n : ℕ) (a : ℝ) :
    sumCos (List.replicate n a) = n * Real.cos (d2r a) := by
  rw [sumCos, List.map_replicate, List.sum_replicate, nsmul_eq_mul]

theorem cos_d2r_355 : Real.cos (d2r 355) = Real.cos (Real.pi / 36) := by
  have hd : d2r 355 = 2 * Real.pi - Real.pi / 36 := by rw [d2r]; ring
  rw [hd, Real.cos_two_pi_sub]

theorem half_le_cos_pi_div_36 : (1 : ℝ) / 2 ≤ Real.cos (Real.pi / 36) := by
  have hpi := Real.pi_pos
  have h := @Real.cos_le_cos_of_nonneg_of_le_pi (Real.pi / 36) (Real.pi / 3)
    (by positivity) (by linarith) (by linarith)
  rwa [Real.cos_pi_div_three] at h

/-- Circular mean of `n ≥ 2` copies of `355` degrees is `355` exactly. -/
theorem mean_angle_replicate_355 {n : ℕ} (hn : 2 ≤ n) :
    mean_angle_deg (List.replicate n (355 : ℝ)) = 355 := by
  have hn' : (2 : ℝ) ≤ (n : ℝ) := by exact_mod_cast hn
  have hnpos : (0 : ℝ) < (n : ℝ) := by linarith
  have hcge : (1 : ℝ) ≤ (n : ℝ) * Real.cos (d2r 355) := by
    rw [cos_d2r_355]
    nlinarith [half_le_cos_pi_div_36]
  have hcond : ¬(|sumSin (List.replicate n (355 : ℝ))| < 1e-12 ∧
      |sumCos (List.replicate n (355 : ℝ))| < 1e-12) := by
    rintro ⟨-, habs⟩
    rw [sumCos_replicate, abs_of_nonneg (by linarith)] at habs
    linarith
  rw [mean_angle_deg, if_neg hcond, sumSin_replicate, sumCos_replicate,
    wrap360_r2d_atan2 hnpos, wrap360_eq_self (by norm_num) (by norm_num)]

/-! ## Concrete data used by witnesses -/

/-- A camera at the origin. -/
def cam0 : P3 := ⟨0, 0, 0⟩

/-- A reference point due North, observed without bias. -/
def q0 : RefPt := ⟨"PT1", 0, 100, 0, 0, 0, 100⟩

/-- A reference point due East, observed without bias. -/
def q1 : RefPt := ⟨"PT2", 100, 0, 0, 90, 0, 100⟩

/-- A configuration with two collimation points. -/
def cfg2 : Config := ⟨cam0, [q0, q1]⟩

/-- A configuration with no collimation points. -/
def cfg0 : Config := ⟨cam0, []⟩

/-- A configuration with exactly one collimation point. -/
def cfg1 : Config := ⟨cam0, [q0]⟩

/-! ## Claim theorems -/

/-- A reference point due North observed with a uniform `+5` degree
horizontal offset. -/
def q5a : RefPt := ⟨"PT1", 0, 100, 0, azimut_xy cam0 ⟨0, 100, 0⟩ + 5, 0, 100⟩

/-- A reference point due East observed with a uniform `+5` degree
horizontal offset. -/
def q5b : RefPt := ⟨"PT2", 100, 0, 0, azimut_xy cam0 ⟨100, 0, 0⟩ + 5, 0, 100⟩

/-- The two-point configuration with the uniform `+5` degree offset. -/
def cfg5 : Config := ⟨cam0, [q5a, q5b]⟩

/-- C1 (amended: the distance must be strictly positive; at `D = 0` the
forward point coincides with the origin and the recovered azimuth and
elevation are `0`, not `A` and `E`): for every origin `O`, azimuth
`A ∈ [0, 360)`, elevation `E ∈ (-90, 90)` and distance `D > 0`, the inverse
transforms recover `A`, `E` and `D` exactly. -/
theorem roundtrip_of_forward (O : P3) {A E D : ℝ} (hA0 : 0 ≤ A) (hA1 : A < 360)
    (hE0 : -90 < E) (hE1 : E < 90) (hD : 0 < D) :
    azimut_xy O (calc_xyz_from_angles O A E D) = A ∧
    inclinacion O (calc_xyz_from_angles O A E D) = E ∧
    dist_geom O (calc_xyz_from_angles O A E D) = D :=
  ⟨roundtrip_azimut O hA0 hA1 hE0 hE1 hD,
   roundtrip_inclinacion O A hE0 hE1 hD,
   roundtrip_dist O A E hD.le⟩

/-- C1 witness: the round trip at the origin with `A = 45`, `E = 30`, `D = 2`. -/
theorem roundtrip_of_forward_witness :
    azimut_xy ⟨0, 0, 0⟩ (calc_xyz_from_angles ⟨0, 0, 0⟩ 45 30 2) = 45 ∧
    inclinacion ⟨0, 0, 0⟩ (calc_xyz_from_angles ⟨0, 0, 0⟩ 45 30 2) = 30 ∧
    dist_geom ⟨0, 0, 0⟩ (calc_xyz_from_angles ⟨0, 0, 0⟩ 45 30 2) = 2 :=
  roundtrip_of_forward ⟨0, 0, 0⟩ (by norm_num) (by norm_num) (by norm_num)
    (by norm_num) (by norm_num)

/-- C1 counterexample: at `D = 0` (allowed by the claim, which only asks
`D ≥ 0`) with `A = 90`, the recovered azimuth is `0`, which is not within
`1e-9` of `90`. -/
theorem roundtrip_fails_at_zero_distance :
    azimut_xy ⟨0, 0, 0⟩ (calc_xyz_from_angles ⟨0, 0, 0⟩ 90 0 0) = 0 ∧
    ¬ |azimut_xy ⟨0, 0, 0⟩ (calc_xyz_from_angles ⟨0, 0, 0⟩ 90 0 0) - 90| ≤ 1e-9 := by
  have hw : wrap360 (0 : ℝ) = 0 := wrap360_eq_self le_rfl (by norm_num)
  have hpt : calc_xyz_from_angles (⟨0, 0, 0⟩ : P3) 90 0 0 = ⟨0, 0, 0⟩ := by
    simp [calc_xyz_from_angles]
  have haz : azimut_xy (⟨0, 0, 0⟩ : P3) ⟨0, 0, 0⟩ = 0 := by
    simp [azimut_xy, atan2_zero_zero, r2d, hw]
  rw [hpt, haz]
  norm_num

/-- C6: `wrap360` always lands in `[0, 360)` and is idempotent, and
`azimut_xy` always lands in `[0, 360)`. -/
theorem wrap360_range_idem_azimut :
    (∀ a : ℝ, wrap360 a ∈ Set.Ico (0 : ℝ) 360 ∧ wrap360 (wrap360 a) = wrap360 a) ∧
    ∀ cam pt : P3, azimut_xy cam pt ∈ Set.Ico (0 : ℝ) 360 := by
  constructor
  · intro a
    exact ⟨⟨wrap360_nonneg a, wrap360_lt a⟩,
      wrap360_eq_self (wrap360_nonneg a) (wrap360_lt a)⟩
  · intro cam pt
    exact ⟨wrap360_nonneg _, wrap360_lt _⟩

/-- C4 counterexample: `wrap180 180 = -180`, which is outside the interval
`(-180, 180]` stated by the claim. -/
theorem wrap180_at_180 :
    wrap180 180 = -180 ∧ (-180 : ℝ) ∉ Set.Ioc (-180 : ℝ) 180 := by
  constructor
  · have h : ((180 : ℝ) + 180) / 360 = 1 := by norm_num
    rw [wrap180, pyMod, h, Int.floor_one]
    norm_num
  · simp

/-- C4 (amended: the interval is the half-open `[-180, 180)`; the value
`-180` is attained, e.g. at input `180`, and `180` is never attained):
`wrap180` always lands in `[-180, 180)`, and hence so does the `ajuste_ah`
field of every successful calibration. -/
theorem wrap180_range_and_ajuste :
    (∀ a : ℝ, wrap180 a ∈ Set.Ico (-180 : ℝ) 180) ∧
    ∀ (cfg : Config) (res : CalResult), calibrate cfg = .ok res →
      res.ajuste_ah ∈ Set.Ico (-180 : ℝ) 180 := by
  constructor
  · exact wrap180_mem_Ico
  · intro cfg res hres
    simp only [calibrate] at hres
    split at hres
    · cases hres
    · cases hres
      exact wrap180_mem_Ico _

/-- C4 witness: the range at input `1234`, and the `ajuste_ah` of the
two-point configuration `cfg2`. -/
theorem wrap180_range_and_ajuste_witness :
    wrap180 1234 ∈ Set.Ico (-180 : ℝ) 180 ∧
    (match calibrate cfg2 with
     | .ok res => res.ajuste_ah ∈ Set.Ico (-180 : ℝ) 180
     | .error _ => False) := by
  constructor
  · exact wrap180_range_and_ajuste.1 1234
  · cases h : calibrate cfg2 with
    | error e => simp [calibrate, cfg2] at h
    | ok res => simpa using wrap180_range_and_ajuste.2 cfg2 res h

/-- C7: the compute route corrects the azimuth by `wrap360 (raw + ajuste_ah)`,
corrects the elevation additively with no normalization, and returns exactly
the forward transform of the corrected pair. -/
theorem api_compute_point_spec (st : ServerState) (cam : P3) (ah av d : ℝ) :
    (api_compute_point st cam ah av d).AH_corr = wrap360 (ah + st.ajuste_ah) ∧
    (api_compute_point st cam ah av d).AV_corr = av + st.ajuste_av ∧
    (api_compute_point st cam ah av d).X =
      (calc_xyz_from_angles cam (wrap360 (ah + st.ajuste_ah)) (av + st.ajuste_av) d).X ∧
    (api_compute_point st cam ah av d).Y =
      (calc_xyz_from_angles cam (wrap360 (ah + st.ajuste_ah)) (av + st.ajuste_av) d).Y ∧
    (api_compute_point st cam ah av d).Z =
      (calc_xyz_from_angles cam (wrap360 (ah + st.ajuste_ah)) (av + st.ajuste_av) d).Z :=
  ⟨rfl, rfl, rfl, rfl, rfl⟩

/-- C8: when calibration fails, the published state is returned verbatim:
no field is overwritten. -/
theorem api_calibrate_failure_preserves_state (st : ServerState) (cfg : Config)
    (e : CalError) (h : calibrate cfg = .error e) :
    (api_calibrate st cfg).1 = st := by
  simp [api_calibrate, h]

/-- C8 witness: a failing calibration on the empty configuration leaves the
initial state unchanged. -/
theorem api_calibrate_failure_preserves_state_witness :
    (api_calibrate initState cfg0).1 = initState :=
  api_calibrate_failure_preserves_state initState cfg0 .insufficientData rfl

/-- C5: circular mean of `[0, 360]` is `0` (boundary wrap), circular mean of
`[90, 270]` is `0` (degenerate cancellation), and whenever both accumulators
are below `1e-12` in magnitude the result is exactly `0`. -/
theorem mean_angle_boundary_and_degenerate :
    mean_angle_deg [0, 360] = 0 ∧ mean_angle_deg [90, 270] = 0 ∧
    ∀ l : List ℝ, |sumSin l| < 1e-12 → |sumCos l| < 1e-12 → mean_angle_deg l = 0 := by
  have h360 : d2r 360 = 2 * Real.pi := by rw [d2r]; ring
  have h90 : d2r 90 = Real.pi / 2 := by rw [d2r]; ring
  have h270 : d2r 270 = 2 * Real.pi - Real.pi / 2 := by rw [d2r]; ring
  have h0 : d2r 0 = 0 := by rw [d2r]; ring
  refine ⟨?_, ?_, ?_⟩
  · have hs : sumSin [0, 360] = 0 := by
      rw [sumSin]
      norm_num [h360, h0, Real.sin_two_pi]
    have hc : sumCos [0, 360] = 2 := by
      rw [sumCos]
      norm_num [h360, h0, Real.cos_two_pi]
    rw [mean_angle_deg, hs, hc, if_neg (by norm_num),
      atan2_zero_of_nonneg (by norm_num), r2d_zero, wrap360_zero]
  · have hs : sumSin [90, 270] = 0 := by
      rw [sumSin]
      norm_num [h90, h270, Real.sin_two_pi_sub, Real.sin_pi_div_two]
    have hc : sumCos [90, 270] = 0 := by
      rw [sumCos]
      norm_num [h90, h270, Real.cos_two_pi_sub, Real.cos_pi_div_two]
    rw [mean_angle_deg, hs, hc, if_pos (by norm_num)]
  · intro l h1 h2
    rw [mean_angle_deg, if_pos ⟨h1, h2⟩]

/-- C5 witness: the degeneracy clause at the concrete list `[180, 0]`, whose
accumulators both vanish. -/
theorem mean_angle_boundary_and_degenerate_witness :
    mean_angle_deg [180, 0] = 0 := by
  have h180 : d2r 180 = Real.pi := by rw [d2r]; ring
  have h0 : d2r 0 = 0 := by rw [d2r]; ring
  refine mean_angle_boundary_and_degenerate.2.2 [180, 0] ?_ ?_
  · rw [sumSin]
    norm_num [h180, h0, Real.sin_pi]
  · rw [sumCos]
    norm_num [h180, h0, Real.cos_pi]

/-- C3: calibration fails with the insufficient-data error exactly when
fewer than two collimation points are supplied, and otherwise returns a
result: the length test is the only validation performed. -/
theorem calibrate_insufficient_iff (cfg : Config) :
    (calibrate cfg = .error .insufficientData ↔ cfg.collimation_points.length < 2) ∧
    (2 ≤ cfg.collimation_points.length → ∃ res, calibrate cfg = .ok res) := by
  constructor
  · constructor
    · intro h
      by_contra hlen
      simp only [calibrate] at h
      rw [if_neg hlen] at h
      cases h
    · intro hlen
      simp only [calibrate]
      rw [if_pos hlen]
  · intro hlen
    simp only [calibrate]
    rw [if_neg (by omega)]
    exact ⟨_, rfl⟩

/-- C3 witness: one point fails, two points succeed. -/
theorem calibrate_insufficient_iff_witness :
    calibrate cfg1 = .error .insufficientData ∧ ∃ res, calibrate cfg2 = .ok res :=
  ⟨(calibrate_insufficient_iff cfg1).1.mpr (by norm_num [cfg1]),
   (calibrate_insufficient_iff cfg2).2 (by norm_num [cfg2])⟩

/-- C2: if every reference observation carries a uniform `+5` degree
horizontal offset over its true azimuth, calibration returns
`ajuste_ah = -5` exactly, and reconstructing a fresh sighting offset by the
same `+5` degrees yields a corrected azimuth equal to the true azimuth. -/
theorem calibrate_uniform_offset (cam : P3) (pts : List RefPt) (res : CalResult)
    (st : ServerState) (Q : P3) (av d : ℝ)
    (h2 : 2 ≤ pts.length)
    (hobs : ∀ pt ∈ pts, pt.AH_obs = azimut_xy cam pt.pos + 5)
    (hres : calibrate ⟨cam, pts⟩ = .ok res)
    (hst : st.ajuste_ah = res.ajuste_ah) :
    res.ajuste_ah = -5 ∧
    (api_compute_point st cam (azimut_xy cam Q + 5) av d).AH_corr = azimut_xy cam Q := by
  have hmap : pts.map (delta_ah cam) = List.replicate pts.length (-5 : ℝ) := by
    have hmem : ∀ b ∈ pts.map (delta_ah cam), b = (-5 : ℝ) := by
      intro b hb
      obtain ⟨pt, hpt, rfl⟩ := List.mem_map.1 hb
      have hdiff : azimut_xy cam pt.pos - pt.AH_obs = -5 := by
        rw [hobs pt hpt]; ring
      rw [delta_ah, hdiff, wrap180_neg_five]
    have h := List.eq_replicate_of_mem hmem
    rwa [List.length_map] at h
  have hok : res.ajuste_ah = -5 := by
    simp only [calibrate] at hres
    rw [if_neg (by omega)] at hres
    cases hres
    show wrap180 (mean_angle_deg ((pts.map (delta_ah cam)).map wrap360)) = -5
    rw [hmap, List.map_replicate, wrap360_neg_five, mean_angle_replicate_355 h2,
      wrap180_355]
  refine ⟨hok, ?_⟩
  show wrap360 (azimut_xy cam Q + 5 + st.ajuste_ah) = azimut_xy cam Q
  rw [hst, hok]
  have harg : azimut_xy cam Q + 5 + (-5 : ℝ) = azimut_xy cam Q := by ring
  rw [harg]
  obtain ⟨hge, hlt⟩ := azimut_xy_mem_Ico cam Q
  exact wrap360_eq_self hge hlt

/-- C2 witness: the two-point `+5`-offset configuration `cfg5`, with a fresh
sighting toward `(3, 4, 5)`. -/
theorem calibrate_uniform_offset_witness :
    (match calibrate cfg5 with
     | .ok res => res.ajuste_ah = -5 ∧
         (api_compute_point ⟨res.ajuste_ah, res.ajuste_av, [], 2, true⟩ cam0
           (azimut_xy cam0 ⟨3, 4, 5⟩ + 5) 0 10).AH_corr = azimut_xy cam0 ⟨3, 4, 5⟩
     | .error _ => False) := by
  cases h : calibrate cfg5 with
  | error e =>
      norm_num [calibrate, cfg5] at h
      exact Except.noConfusion h
  | ok res =>
      exact calibrate_uniform_offset cam0 [q5a, q5b] res
        ⟨res.ajuste_ah, res.ajuste_av, [], 2, true⟩ ⟨3, 4, 5⟩ 0 10
        (by norm_num) (by intro pt hpt; fin_cases hpt <;> rfl) h rfl

end AppCarro
